import Mathlib

/-!
Shallow embedding of the vAMM math core (`src/math/amm.ts` of the
protocol-v1 SDK) and proofs about it.

Numbers in the source are bn.js arbitrary-precision signed integers:
`mul`/`add`/`sub` are exact, `div` truncates toward zero, `mod` carries the
sign of the dividend, and `div`/`mod` throw on a zero divisor.  We embed
them as `Int` with `Int.tdiv` / `Int.tmod`, and model the throwing
operations in the `Except` monad.
-/

namespace Protocol

/-- Failure conditions of the embedded arithmetic: the `assert` at the top
of `calculateAmmReservesAfterSwap`, the bn.js division-by-zero throw, and
the integer square root applied to a negative operand. -/
inductive MathError where
  | assertionFailed : MathError
  | divisionByZero : MathError
  | negativeSqrt : MathError
deriving DecidableEq, Repr

/-- bn.js `a.div(b)`: truncating (toward-zero) division, throwing when the
divisor is zero. -/
def bnDiv (a b : Int) : Except MathError Int :=
  if b = 0 then Except.error MathError.divisionByZero
  else Except.ok (Int.tdiv a b)

/-- SwapDirection variant (`types.ts`): whether the input-side reserve
grows or shrinks. -/
inductive SwapDirection where
  | add : SwapDirection
  | remove : SwapDirection
deriving DecidableEq, Repr

/-- PositionDirection variant (`types.ts`): the trading intent. -/
inductive PositionDirection where
  | long : PositionDirection
  | short : PositionDirection
deriving DecidableEq, Repr

/-- AssetType (`amm.ts`): denomination of the caller-supplied swap
amount, `'quote' | 'base'`. -/
inductive AssetType where
  | quote : AssetType
  | base : AssetType
deriving DecidableEq, Repr

/-- AMM curve state (`types.ts`), restricted to the fields the math core
reads: `baseAssetReserve`, `quoteAssetReserve`, `sqrtK`, `pegMultiplier`,
and `cumulativeFundingRate` (copied into the synthetic net position by the
cost estimators). -/
structure AMM where
  baseAssetReserve : Int
  quoteAssetReserve : Int
  sqrtK : Int
  pegMultiplier : Int
  cumulativeFundingRate : Int
deriving DecidableEq, Repr

/-- Market state (`types.ts`), restricted to the fields the math core
reads: the embedded AMM and the net `baseAssetAmount`. -/
structure Market where
  amm : AMM
  baseAssetAmount : Int
deriving DecidableEq, Repr

/-- UserPosition record (`types.ts`), restricted to the fields built by
the cost estimators for the synthetic net position. -/
structure UserPosition where
  baseAssetAmount : Int
  lastCumulativeFundingRate : Int
  marketIndex : Int
  quoteAssetAmount : Int
  openOrders : Int
deriving DecidableEq, Repr

/-- Modelled from the spec: the named price-scale constant
`MARK_PRICE_PRECISION` of the missing `constants/numericConstants` module
(the precision used for all price outputs). -/
def MARK_PRICE_PRECISION : Int := 10 ^ 10

/-- Modelled from the spec: the named peg-scale constant `PEG_PRECISION`
of the missing `constants/numericConstants` module (the precision of the
curve peg multiplier). -/
def PEG_PRECISION : Int := 10 ^ 3

/-- Constant `ZERO` of the missing `constants/numericConstants` module. -/
def ZERO : Int := 0

/-- Constant `ONE` of the missing `constants/numericConstants` module. -/
def ONE : Int := 1

/-- Embedding of `calculatePrice` (`amm.ts`, lines 32 to 46): a price from
an arbitrary base and quote amount.  Both inner divisors are nonzero on
the division path, so no bn.js throw is reachable and the function is
total. -/
def calculatePrice (baseAssetAmount quoteAssetAmount peg_multiplier : Int) : Int :=
  if |baseAssetAmount| ≤ ZERO then 0
  else
    Int.tdiv
      (Int.tdiv (quoteAssetAmount * MARK_PRICE_PRECISION * peg_multiplier) PEG_PRECISION)
      baseAssetAmount

/-- Embedding of `calculateSwapOutput` (`amm.ts`, lines 110 to 124):
constant-product curve output, agnostic to which asset is the input. -/
def calculateSwapOutput (inputAssetReserve swapAmount : Int)
    (swapDirection : SwapDirection) (invariant : Int) :
    Except MathError (Int × Int) := do
  let newInputAssetReserve :=
    match swapDirection with
    | SwapDirection.add => inputAssetReserve + swapAmount
    | SwapDirection.remove => inputAssetReserve - swapAmount
  let newOutputAssetReserve ← bnDiv invariant newInputAssetReserve
  pure (newInputAssetReserve, newOutputAssetReserve)

/-- Embedding of `calculateAmmReservesAfterSwap` (`amm.ts`, lines 59 to
99): the AMM reserves after swapping a quote or base asset amount.  The
initial `assert(swapAmount.gte(ZERO))` is the `assertionFailed` branch. -/
def calculateAmmReservesAfterSwap (amm : AMM) (inputAssetType : AssetType)
    (swapAmount : Int) (swapDirection : SwapDirection) :
    Except MathError (Int × Int) :=
  if ¬ swapAmount ≥ ZERO then Except.error MathError.assertionFailed
  else
    match inputAssetType with
    | AssetType.quote => do
      let swapAmountIntermediate := swapAmount * MARK_PRICE_PRECISION
      let swapAmountConverted ← bnDiv swapAmountIntermediate amm.pegMultiplier
      let swapAmountFinal :=
        if swapDirection = SwapDirection.remove ∧
            ¬ Int.tmod swapAmountIntermediate amm.pegMultiplier = ZERO then
          swapAmountConverted + ONE
        else swapAmountConverted
      calculateSwapOutput amm.quoteAssetReserve swapAmountFinal swapDirection
        (amm.sqrtK * amm.sqrtK)
    | AssetType.base => do
      let (newBaseAssetReserve, newQuoteAssetReserve) ←
        calculateSwapOutput amm.baseAssetReserve swapAmount swapDirection
          (amm.sqrtK * amm.sqrtK)
      pure (newQuoteAssetReserve, newBaseAssetReserve)

/-- Embedding of `getSwapDirection` (`amm.ts`, lines 132 to 145):
translate long/short on quote/base into the amm reserve operation. -/
def getSwapDirection (inputAssetType : AssetType)
    (positionDirection : PositionDirection) : SwapDirection :=
  if positionDirection = PositionDirection.long ∧ inputAssetType = AssetType.base then
    SwapDirection.remove
  else if positionDirection = PositionDirection.short ∧ inputAssetType = AssetType.quote then
    SwapDirection.remove
  else
    SwapDirection.add

/-- Modelled from the spec: the integer square root `squareRootBN` of the
missing SDK utility module — a truncating integer square root that fails
with an arithmetic error on a negative operand (section 7 of the spec). -/
def squareRootBN (n : Int) : Except MathError Int :=
  if n < 0 then Except.error MathError.negativeSqrt
  else Except.ok (Int.sqrt n)

/-- Embedding of `calculateTerminalPrice` (`amm.ts`, lines 237 to 256):
project reserves after closing the whole net position, then apply the
price formula (inlined in the source) to the projected reserves. -/
def calculateTerminalPrice (market : Market) : Except MathError Int := do
  let directionToClose :=
    if market.baseAssetAmount > ZERO then PositionDirection.short
    else PositionDirection.long
  let (newQuoteAssetReserve, newBaseAssetReserve) ←
    calculateAmmReservesAfterSwap market.amm AssetType.base
      |market.baseAssetAmount| (getSwapDirection AssetType.base directionToClose)
  let terminalPrice ← bnDiv
    (Int.tdiv (newQuoteAssetReserve * MARK_PRICE_PRECISION * market.amm.pegMultiplier)
      PEG_PRECISION)
    newBaseAssetReserve
  pure terminalPrice

/-- Embedding of `calculateMaxBaseAssetAmountToTrade` (`amm.ts`, lines 258
to 289): invert the invariant at the limit price via the integer square
root and compare against the current base reserve. -/
def calculateMaxBaseAssetAmountToTrade (amm : AMM) (limit_price : Int) :
    Except MathError (Int × PositionDirection) := do
  let invariant := amm.sqrtK * amm.sqrtK
  let afterLimitDiv ← bnDiv (invariant * MARK_PRICE_PRECISION * amm.pegMultiplier) limit_price
  let newBaseAssetReserveSquared := Int.tdiv afterLimitDiv PEG_PRECISION
  let newBaseAssetReserve ← squareRootBN newBaseAssetReserveSquared
  if newBaseAssetReserve > amm.baseAssetReserve then
    pure (newBaseAssetReserve - amm.baseAssetReserve, PositionDirection.short)
  else if newBaseAssetReserve < amm.baseAssetReserve then
    pure (amm.baseAssetReserve - newBaseAssetReserve, PositionDirection.long)
  else
    pure (0, PositionDirection.long)

/-- Modelled from the spec: the external base-asset valuation function
`calculateBaseAssetValue` of the missing `position` module (section 6 of
the spec): the mark-to-market quote value of a position, obtained by
projecting the reserves after closing the position against the curve and
valuing the quote-reserve delta at the current peg.  It reads only the
market and the position's `baseAssetAmount`. -/
def calculateBaseAssetValue (market : Market) (userPosition : UserPosition) :
    Except MathError Int := do
  let directionToClose :=
    if userPosition.baseAssetAmount > ZERO then PositionDirection.short
    else PositionDirection.long
  let (newQuoteAssetReserve, _newBaseAssetReserve) ←
    calculateAmmReservesAfterSwap market.amm AssetType.base
      |userPosition.baseAssetAmount| (getSwapDirection AssetType.base directionToClose)
  pure (Int.tdiv
    (|market.amm.quoteAssetReserve - newQuoteAssetReserve| * market.amm.pegMultiplier)
    PEG_PRECISION)

/-- Modelled from the spec: the external position valuation
`calculatePositionPNL` of the missing SDK module (sections 4.5 and 6 of
the spec): the realized-PnL-style delta between the position's current
mark-to-market value against the given market and its recorded
`quoteAssetAmount`, with the sign following the position direction. -/
def calculatePositionPNL (market : Market) (userPosition : UserPosition) :
    Except MathError Int := do
  let value ← calculateBaseAssetValue market userPosition
  if userPosition.baseAssetAmount ≥ ZERO then
    pure (value - userPosition.quoteAssetAmount)
  else
    pure (userPosition.quoteAssetAmount - value)

/-- Embedding of `calculateAdjustKCost` (`amm.ts`, lines 155 to 187):
value the synthetic net position against the original market, scale the
three curve fields by `numerator / denomenator` (truncating, per field),
and revalue the position against the scaled market. -/
def calculateAdjustKCost (market : Market) (marketIndex numerator denomenator : Int) :
    Except MathError Int := do
  let netUserPosition : UserPosition :=
    { baseAssetAmount := market.baseAssetAmount
      lastCumulativeFundingRate := market.amm.cumulativeFundingRate
      marketIndex := marketIndex
      quoteAssetAmount := 0
      openOrders := 0 }
  let currentValue ← calculateBaseAssetValue market netUserPosition
  let newBaseAssetReserve ← bnDiv (market.amm.baseAssetReserve * numerator) denomenator
  let newQuoteAssetReserve ← bnDiv (market.amm.quoteAssetReserve * numerator) denomenator
  let newSqrtK ← bnDiv (market.amm.sqrtK * numerator) denomenator
  let marketNewK : Market :=
    { market with
        amm := { market.amm with
                   baseAssetReserve := newBaseAssetReserve
                   quoteAssetReserve := newQuoteAssetReserve
                   sqrtK := newSqrtK } }
  let fundedPosition := { netUserPosition with quoteAssetAmount := currentValue }
  calculatePositionPNL marketNewK fundedPosition

/-- Specification-side restatement of the Price Calculator contract of
section 4.1 of the spec: `0` when `baseAmount` is zero, otherwise
`quoteAmount * PRICE_SCALE * pegMultiplier / PEG_SCALE / baseAmount` with
truncating division applied left to right. -/
def calculatePriceSpec (baseAssetAmount quoteAssetAmount peg_multiplier : Int) : Int :=
  if baseAssetAmount = 0 then 0
  else
    Int.tdiv
      (Int.tdiv (quoteAssetAmount * MARK_PRICE_PRECISION * peg_multiplier) PEG_PRECISION)
      baseAssetAmount

/-- Claim C4: for all inputs, `calculatePrice` returns 0 when the base
amount is zero, and otherwise the left-to-right truncated quotient
`quoteAmount * PRICE_SCALE * pegMultiplier / PEG_SCALE / baseAmount`,
exactly as the spec-side restatement `calculatePriceSpec` says. -/
theorem calculatePrice_matches_spec (b q p : Int) :
    calculatePrice b q p = calculatePriceSpec b q p := by
  unfold calculatePrice calculatePriceSpec ZERO
  rcases eq_or_ne b 0 with hb | hb
  · simp [hb]
  · rw [if_neg, if_neg hb]
    rw [abs_nonpos_iff]
    exact hb

/-- Claim C5: `getSwapDirection` realizes exactly the table of section 4.3
of the spec: (Long, Base) and (Short, Quote) map to Remove, (Long, Quote)
and (Short, Base) map to Add, and every result is Add or Remove. -/
theorem getSwapDirection_table :
    getSwapDirection AssetType.base PositionDirection.long = SwapDirection.remove ∧
    getSwapDirection AssetType.quote PositionDirection.short = SwapDirection.remove ∧
    getSwapDirection AssetType.quote PositionDirection.long = SwapDirection.add ∧
    getSwapDirection AssetType.base PositionDirection.short = SwapDirection.add ∧
    ∀ (t : AssetType) (d : PositionDirection),
      getSwapDirection t d = SwapDirection.add ∨
      getSwapDirection t d = SwapDirection.remove := by
  refine ⟨rfl, rfl, rfl, rfl, ?_⟩
  intro t d
  cases t <;> cases d <;> simp [getSwapDirection]

/-- Claim C2 (amended): `calculateSwapOutput` fails, with the bn.js
division-by-zero error, exactly when the new input reserve is zero; a
negative new input reserve is not rejected and the truncating division
returns a result. -/
theorem swapOutput_error_iff_zero_reserve (inputAssetReserve swapAmount : Int)
    (d : SwapDirection) (invariant : Int) :
    calculateSwapOutput inputAssetReserve swapAmount d invariant =
        Except.error MathError.divisionByZero ↔
      (match d with
       | SwapDirection.add => inputAssetReserve + swapAmount
       | SwapDirection.remove => inputAssetReserve - swapAmount) = 0 := by
  cases d <;>
    simp only [calculateSwapOutput, bnDiv, bind, Except.bind] <;>
    split_ifs <;>
    simp_all [Except.bind, pure, Except.pure]

/-- Claim C2, counterexample to the claim as stated: with input reserve 1,
swap amount 2, direction Remove and invariant 4, the new input reserve is
negative, yet the function returns a result instead of failing. -/
theorem swapOutput_negative_reserve_counterexample :
    (1 : Int) - 2 ≤ 0 ∧
    calculateSwapOutput 1 2 SwapDirection.remove 4 = Except.ok (-1, -4) :=
  ⟨by decide, rfl⟩

/-- Claim C3 (amended): `calculateMaxBaseAssetAmountToTrade` performs no
argument check; with a zero limit price it fails with the bn.js
division-by-zero error at the unguarded division. -/
theorem maxTrade_zero_limit_divisionByZero (amm : AMM) :
    calculateMaxBaseAssetAmountToTrade amm 0 =
      Except.error MathError.divisionByZero := rfl

/-- Claim C3, counterexample to the claim as stated: with a negative limit
price whose magnitude makes the truncating division return 0, the function
performs the division, takes the square root of 0 and returns a normal
result, raising no InvalidArgument error at all. -/
theorem maxTrade_negative_limit_counterexample :
    (-(10 ^ 20) : Int) < 0 ∧
    calculateMaxBaseAssetAmountToTrade ⟨1, 1, 1, 1000, 0⟩ (-(10 ^ 20)) =
      Except.ok (1, PositionDirection.long) :=
  ⟨by decide, rfl⟩

/-- Claim C10: the base-denominated path of
`calculateAmmReservesAfterSwap` reads only `baseAssetReserve` and `sqrtK`:
two AMM states agreeing on those two fields give identical results for
every swap amount and direction, whatever their peg multipliers (and quote
reserves). -/
theorem base_swap_peg_independent (amm1 amm2 : AMM)
    (hb : amm1.baseAssetReserve = amm2.baseAssetReserve)
    (hk : amm1.sqrtK = amm2.sqrtK) (swapAmount : Int) (d : SwapDirection) :
    calculateAmmReservesAfterSwap amm1 AssetType.base swapAmount d =
      calculateAmmReservesAfterSwap amm2 AssetType.base swapAmount d := by
  simp only [calculateAmmReservesAfterSwap, hb, hk]

/-- Claim C10, witness: two AMM states sharing base reserve 5 and sqrtK 6
but with peg multipliers 1000 and 77 (and different quote reserves)
produce the same base-denominated projection. -/
theorem base_swap_peg_independent_witness :
    calculateAmmReservesAfterSwap ⟨5, 7, 6, 1000, 0⟩ AssetType.base 2 SwapDirection.add =
      calculateAmmReservesAfterSwap ⟨5, 9, 6, 77, 0⟩ AssetType.base 2 SwapDirection.add :=
  base_swap_peg_independent ⟨5, 7, 6, 1000, 0⟩ ⟨5, 9, 6, 77, 0⟩ rfl rfl 2 SwapDirection.add

/-- Helper: a successful `calculateSwapOutput` call determines its result:
the first component is the (nonzero) new input reserve and the second the
truncated quotient of the invariant by it. -/
lemma swapOutput_ok (r a : Int) (d : SwapDirection) (k x y : Int)
    (h : calculateSwapOutput r a d k = Except.ok (x, y)) :
    x ≠ 0 ∧ y = Int.tdiv k x ∧
      x = (match d with
           | SwapDirection.add => r + a
           | SwapDirection.remove => r - a) := by
  cases d
  case add =>
    simp only [calculateSwapOutput, bnDiv, bind] at h
    by_cases h0 : r + a = 0
    · rw [if_pos h0] at h
      exact Except.noConfusion h
    · rw [if_neg h0] at h
      simp only [Except.bind, pure, Except.pure, Except.ok.injEq, Prod.mk.injEq] at h
      obtain ⟨h1, h2⟩ := h
      subst h1; subst h2
      exact ⟨h0, rfl, rfl⟩
  case remove =>
    simp only [calculateSwapOutput, bnDiv, bind] at h
    by_cases h0 : r - a = 0
    · rw [if_pos h0] at h
      exact Except.noConfusion h
    · rw [if_neg h0] at h
      simp only [Except.bind, pure, Except.pure, Except.ok.injEq, Prod.mk.injEq] at h
      obtain ⟨h1, h2⟩ := h
      subst h1; subst h2
      exact ⟨h0, rfl, rfl⟩

/-- Helper: shape of a successful base-denominated
`calculateAmmReservesAfterSwap` call: the returned base reserve is nonzero
and the returned quote reserve is the invariant truncated-divided by it. -/
lemma ammSwap_base_ok (amm : AMM) (amt : Int) (d : SwapDirection) (q b : Int)
    (h : calculateAmmReservesAfterSwap amm AssetType.base amt d = Except.ok (q, b)) :
    b ≠ 0 ∧ q = Int.tdiv (amm.sqrtK * amm.sqrtK) b := by
  simp only [calculateAmmReservesAfterSwap] at h
  by_cases ha : amt ≥ ZERO
  · rw [if_neg (not_not_intro ha)] at h
    rcases hs : calculateSwapOutput amm.baseAssetReserve amt d (amm.sqrtK * amm.sqrtK)
        with e | p
    · rw [hs] at h
      simp only [bind, Except.bind] at h
      exact Except.noConfusion h
    · obtain ⟨x, y⟩ := p
      rw [hs] at h
      simp only [bind, Except.bind, pure, Except.pure, Except.ok.injEq, Prod.mk.injEq] at h
      obtain ⟨hx0, hy, -⟩ := swapOutput_ok _ _ _ _ _ _ hs
      obtain ⟨h1, h2⟩ := h
      subst h1; subst h2
      exact ⟨hx0, hy⟩
  · rw [if_pos ha] at h
    exact Except.noConfusion h

/-- Helper: shape of a successful quote-denominated
`calculateAmmReservesAfterSwap` call: the returned quote reserve is
nonzero and the returned base reserve is the invariant truncated-divided
by it. -/
lemma ammSwap_quote_ok (amm : AMM) (amt : Int) (d : SwapDirection) (q b : Int)
    (h : calculateAmmReservesAfterSwap amm AssetType.quote amt d = Except.ok (q, b)) :
    q ≠ 0 ∧ b = Int.tdiv (amm.sqrtK * amm.sqrtK) q := by
  simp only [calculateAmmReservesAfterSwap] at h
  by_cases ha : amt ≥ ZERO
  · rw [if_neg (not_not_intro ha)] at h
    rcases hdv : bnDiv (amt * MARK_PRICE_PRECISION) amm.pegMultiplier with e | conv
    · rw [hdv] at h
      simp only [bind, Except.bind] at h
      exact Except.noConfusion h
    · rw [hdv] at h
      simp only [bind, Except.bind] at h
      obtain ⟨hx0, hy, -⟩ := swapOutput_ok _ _ _ _ _ _ h
      exact ⟨hx0, hy⟩
  · rw [if_pos ha] at h
    exact Except.noConfusion h

/-- Claim C6: on the quote-denominated path, the amount handed to the
Swap Simulator is the truncating conversion
`swapAmount * PRICE_SCALE / pegMultiplier`, plus exactly 1 when and only
when the direction is Remove and the conversion dropped a nonzero
remainder; the simulator then runs on the quote reserve with invariant
`sqrtK * sqrtK`. -/
theorem quote_swap_conversion (amm : AMM) (swapAmount : Int) (d : SwapDirection)
    (hamt : 0 ≤ swapAmount) (hpeg : amm.pegMultiplier ≠ 0) :
    calculateAmmReservesAfterSwap amm AssetType.quote swapAmount d =
      calculateSwapOutput amm.quoteAssetReserve
        (Int.tdiv (swapAmount * MARK_PRICE_PRECISION) amm.pegMultiplier +
          (if d = SwapDirection.remove ∧
              ¬ Int.tmod (swapAmount * MARK_PRICE_PRECISION) amm.pegMultiplier = 0
           then 1 else 0))
        d (amm.sqrtK * amm.sqrtK) := by
  simp only [calculateAmmReservesAfterSwap, ZERO, ONE]
  rw [if_neg (by omega : ¬ ¬ swapAmount ≥ (0 : Int))]
  simp only [bnDiv, if_neg hpeg, bind, Except.bind]
  split_ifs with hc
  · rfl
  · norm_num

/-- Claim C6, witness: with peg multiplier 3, swap amount 1 and direction
Remove, the conversion truncates a nonzero remainder, so one unit is added
back before the simulator runs on the quote reserve. -/
theorem quote_swap_conversion_witness :
    calculateAmmReservesAfterSwap ⟨5, 5, 5, 3, 0⟩ AssetType.quote 1 SwapDirection.remove =
      calculateSwapOutput 5
        (Int.tdiv (1 * MARK_PRICE_PRECISION) 3 +
          (if SwapDirection.remove = SwapDirection.remove ∧
              ¬ Int.tmod (1 * MARK_PRICE_PRECISION) 3 = 0
           then 1 else 0))
        SwapDirection.remove 25 :=
  quote_swap_conversion ⟨5, 5, 5, 3, 0⟩ 1 SwapDirection.remove (by decide) (by decide)

/-- Claim C7 (amended): on a live AMM state — strictly positive reserves,
positive peg multiplier, and the data-model invariant
`baseAssetReserve * quoteAssetReserve = sqrtK * sqrtK` holding exactly —
a zero-amount swap returns the reserves unchanged, for every denomination
and direction. -/
theorem zero_swap_identity (amm : AMM) (t : AssetType) (d : SwapDirection)
    (hbase : 0 < amm.baseAssetReserve) (hquote : 0 < amm.quoteAssetReserve)
    (hpeg : 0 < amm.pegMultiplier)
    (hinv : amm.baseAssetReserve * amm.quoteAssetReserve = amm.sqrtK * amm.sqrtK) :
    calculateAmmReservesAfterSwap amm t 0 d =
      Except.ok (amm.quoteAssetReserve, amm.baseAssetReserve) := by
  have hq0 : amm.quoteAssetReserve ≠ 0 := hquote.ne'
  have hb0 : amm.baseAssetReserve ≠ 0 := hbase.ne'
  have hp0 : amm.pegMultiplier ≠ 0 := hpeg.ne'
  have hdiv_q : Int.tdiv (amm.sqrtK * amm.sqrtK) amm.quoteAssetReserve =
      amm.baseAssetReserve := by
    rw [← hinv, Int.mul_tdiv_cancel _ hq0]
  have hdiv_b : Int.tdiv (amm.sqrtK * amm.sqrtK) amm.baseAssetReserve =
      amm.quoteAssetReserve := by
    rw [← hinv, mul_comm, Int.mul_tdiv_cancel _ hb0]
  cases t
  case quote =>
    cases d <;>
      simp [calculateAmmReservesAfterSwap, calculateSwapOutput, bnDiv, ZERO, ONE,
        hp0, hq0, Int.zero_tmod, Int.zero_tdiv, hdiv_q, bind, Except.bind, pure,
        Except.pure]
  case base =>
    cases d <;>
      simp [calculateAmmReservesAfterSwap, calculateSwapOutput, bnDiv, ZERO, ONE,
        hb0, hdiv_b, bind, Except.bind, pure, Except.pure]

/-- Claim C7, witness: the live AMM state with reserves 2, sqrtK 2 and peg
multiplier 1000 is returned unchanged by a zero-amount quote-denominated
removal. -/
theorem zero_swap_identity_witness :
    calculateAmmReservesAfterSwap ⟨2, 2, 2, 1000, 0⟩ AssetType.quote 0 SwapDirection.remove =
      Except.ok (2, 2) :=
  zero_swap_identity ⟨2, 2, 2, 1000, 0⟩ AssetType.quote SwapDirection.remove
    (by decide) (by decide) (by decide) (by decide)

/-- Claim C7, counterexample to the claim as stated over every AMM state:
on a state violating the constant-product invariant (reserves 2 and 3 with
sqrtK 10), a zero-amount base swap replaces the quote reserve by
`sqrtK * sqrtK` truncated-divided by the base reserve, returning (50, 2)
instead of (3, 2). -/
theorem zero_swap_identity_counterexample :
    calculateAmmReservesAfterSwap ⟨2, 3, 10, 1000, 0⟩ AssetType.base 0 SwapDirection.add =
      Except.ok (50, 2) ∧
    ((50 : Int), (2 : Int)) ≠ (3, 2) :=
  ⟨rfl, by decide⟩

/-- Claim C8: `calculateTerminalPrice` closes the net position with a
Short-direction trade when `baseAssetAmount > 0` and Long otherwise,
projects the reserves by swapping `|baseAssetAmount|` base units in that
direction, and returns exactly `calculatePrice` of the projected base
reserve, projected quote reserve, and current peg multiplier. -/
theorem terminalPrice_eq_calculatePrice (market : Market) (q b : Int)
    (h : calculateAmmReservesAfterSwap market.amm AssetType.base
        |market.baseAssetAmount|
        (getSwapDirection AssetType.base
          (if market.baseAssetAmount > 0 then PositionDirection.short
           else PositionDirection.long)) = Except.ok (q, b)) :
    calculateTerminalPrice market =
      Except.ok (calculatePrice b q market.amm.pegMultiplier) := by
  obtain ⟨hb0, -⟩ := ammSwap_base_ok market.amm _ _ q b h
  have habs : ¬ |b| ≤ ZERO := by
    rw [ZERO, abs_nonpos_iff]
    exact hb0
  simp only [calculateTerminalPrice, ZERO]
  rw [h]
  simp only [bind, Except.bind, bnDiv, if_neg hb0, pure, Except.pure]
  rw [calculatePrice, if_neg habs]

/-- Claim C8, witness: for the market with reserves 2, sqrtK 2, peg 1000
and net position 1, the terminal price equals `calculatePrice` of the
projected reserves (3, 1). -/
theorem terminalPrice_eq_calculatePrice_witness :
    calculateTerminalPrice ⟨⟨2, 2, 2, 1000, 0⟩, 1⟩ =
      Except.ok (calculatePrice 3 1 1000) :=
  terminalPrice_eq_calculatePrice ⟨⟨2, 2, 2, 1000, 0⟩, 1⟩ 1 3 rfl

/-- Helper: the deficit of truncating division: for a nonnegative
dividend and positive divisor, `x * (k tdiv x)` undershoots `k` by less
than `x`. -/
lemma tdiv_product_bound (k x : Int) (hk : 0 ≤ k) (hx : 0 < x) :
    x * Int.tdiv k x ≤ k ∧ k - x * Int.tdiv k x < x := by
  rw [Int.tdiv_eq_ediv hk hx.le]
  have h1 := Int.ediv_add_emod k x
  have h2 := Int.emod_nonneg k hx.ne'
  have h3 := Int.emod_lt_of_pos k hx
  constructor <;> linarith

/-- Claim C1 (amended): every successful swap projection with positive
returned reserves satisfies `newBase * newQuote ≤ sqrtK * sqrtK`, with a
deficit strictly smaller than the larger returned reserve (the post-swap
input-side reserve); the bound is recomputed from `sqrtK` at every call,
so it does not compound, but the deviation is not limited to a single
rounding unit. -/
theorem reserves_product_bound (amm : AMM) (t : AssetType) (amt : Int)
    (d : SwapDirection) (q b : Int)
    (h : calculateAmmReservesAfterSwap amm t amt d = Except.ok (q, b))
    (hq : 0 < q) (hb : 0 < b) :
    q * b ≤ amm.sqrtK * amm.sqrtK ∧
      amm.sqrtK * amm.sqrtK - q * b < max q b := by
  have hk : 0 ≤ amm.sqrtK * amm.sqrtK := mul_self_nonneg _
  cases t
  case quote =>
    obtain ⟨-, hbv⟩ := ammSwap_quote_ok amm amt d q b h
    subst hbv
    obtain ⟨h1, h2⟩ := tdiv_product_bound (amm.sqrtK * amm.sqrtK) q hk hq
    exact ⟨h1, lt_of_lt_of_le h2 (le_max_left _ _)⟩
  case base =>
    obtain ⟨-, hqv⟩ := ammSwap_base_ok amm amt d q b h
    obtain ⟨h1, h2⟩ := tdiv_product_bound (amm.sqrtK * amm.sqrtK) b hk hb
    rw [← hqv] at h1 h2
    exact ⟨by linarith, lt_of_lt_of_le (by linarith) (le_max_right _ _)⟩

/-- Claim C1, witness: swapping 3 base units into the live AMM with
reserves 10 and sqrtK 10 yields reserves (7, 13); their product 91 is at
most the invariant 100 and the deficit 9 is below max 7 13. -/
theorem reserves_product_bound_witness :
    (7 : Int) * 13 ≤ 10 * 10 ∧ (10 : Int) * 10 - 7 * 13 < max 7 13 :=
  reserves_product_bound ⟨10, 10, 10, 1000, 0⟩ AssetType.base 3 SwapDirection.add
    7 13 rfl (by decide) (by decide)

/-- Claim C1, counterexample to the claim as stated: on the live AMM with
reserves 10, sqrtK 10 (invariant exactly 100) and peg 1000, the valid
base-denominated swap of amount 3 returns reserves (7, 13), whose product
91 deviates from the invariant by 9, far more than a single
rounding-correction unit. -/
theorem reserves_product_unit_counterexample :
    calculateAmmReservesAfterSwap ⟨10, 10, 10, 1000, 0⟩ AssetType.base 3 SwapDirection.add =
      Except.ok (7, 13) ∧
    (1 : Int) < 10 * 10 - 7 * 13 :=
  ⟨rfl, by decide⟩

/-- Helper: bn.js division by a nonzero divisor cancels an exact
multiplication. -/
lemma bnDiv_mul_cancel (x n : Int) (hn : n ≠ 0) : bnDiv (x * n) n = Except.ok x := by
  rw [bnDiv, if_neg hn, Int.mul_tdiv_cancel _ hn]

/-- Helper: a position whose recorded `quoteAssetAmount` is exactly its
current base-asset value against a market has zero PnL against that same
market. -/
lemma pnl_of_self_value (market : Market) (pos : UserPosition) (v : Int)
    (hbav : calculateBaseAssetValue market pos = Except.ok v) :
    calculatePositionPNL market { pos with quoteAssetAmount := v } = Except.ok 0 := by
  have hbav2 : calculateBaseAssetValue market { pos with quoteAssetAmount := v } =
      Except.ok v := hbav
  rw [calculatePositionPNL, hbav2]
  simp only [bind, Except.bind]
  split_ifs <;> simp [pure, Except.pure]

/-- Claim C9: for every market, every market index and every nonzero
scaling factor `n`, a successful `calculateAdjustKCost` call with
numerator and denominator both `n` returns cost 0: scaling the three
curve fields by `n / n` reproduces the original market exactly, so the
two valuations of the synthetic net position cancel. -/
theorem adjustKCost_neutral (market : Market) (marketIndex n c : Int)
    (hn : n ≠ 0)
    (h : calculateAdjustKCost market marketIndex n n = Except.ok c) :
    c = 0 := by
  rw [calculateAdjustKCost] at h
  rcases hbav : calculateBaseAssetValue market
      { baseAssetAmount := market.baseAssetAmount
        lastCumulativeFundingRate := market.amm.cumulativeFundingRate
        marketIndex := marketIndex
        quoteAssetAmount := 0
        openOrders := 0 } with e | v
  · rw [hbav] at h
    simp only [bind, Except.bind] at h
    exact Except.noConfusion h
  · rw [hbav] at h
    simp only [bind, Except.bind] at h
    rw [bnDiv_mul_cancel _ _ hn, bnDiv_mul_cancel _ _ hn, bnDiv_mul_cancel _ _ hn] at h
    simp only [Except.bind] at h
    have h2 : calculatePositionPNL market
        { baseAssetAmount := market.baseAssetAmount
          lastCumulativeFundingRate := market.amm.cumulativeFundingRate
          marketIndex := marketIndex
          quoteAssetAmount := v
          openOrders := 0 } = Except.ok c := h
    rw [pnl_of_self_value market _ v hbav] at h2
    exact (Except.ok.injEq _ _ ▸ h2).symm

/-- Claim C9, witness: scaling the market with reserves 10, sqrtK 10 and
net position 3 by the ratio 2 / 2 costs exactly 0. -/
theorem adjustKCost_neutral_witness :
    calculateAdjustKCost ⟨⟨10, 10, 10, 1000, 7⟩, 3⟩ 1 2 2 = Except.ok 0 ∧
    (0 : Int) = 0 :=
  ⟨rfl, adjustKCost_neutral ⟨⟨10, 10, 10, 1000, 7⟩, 3⟩ 1 2 0 (by decide) rfl⟩

end Protocol
